import Mathlib

/-
Shallow embedding of the CO2LayersEscape radiative-transfer model.

Sources embedded here:
  * src/layers.js — the exponential Layer Builder (layerStartPoints /
    layerThicknesses / accumulatedHeight while-loop).
  * src/unnamed/part_001 — the satellite-observation notebook: physical
    constants, Boltzmann factor, de-excitation probabilities, the
    radiative-transfer loop (tau_nu / dI_nu / I_nu) and the photon-flux
    conversion.

Floating-point arithmetic of the source is modelled over the reals; the
JavaScript while-loop is modelled with explicit fuel, returning none when
the fuel runs out before the loop guard turns false.
-/

namespace CO2Escape

noncomputable section

/-! ## Physical constants (src/unnamed/part_001, first code cell) -/

/-- Planck's constant (J·s). -/
def h : ℝ := 6.62607015e-34

/-- Boltzmann constant (J/K). -/
def k_B : ℝ := 1.380649e-23

/-- Speed of light (m/s). -/
def c : ℝ := 2.99792458e8

/-- Avogadro's number (1/mol). -/
def N_A : ℝ := 6.02214076e23

/-- Molar mass of CO2 (kg/mol). -/
def M_CO2 : ℝ := 44.01e-3

/-- Mass of one CO2 molecule (kg). -/
def m_CO2 : ℝ := M_CO2 / N_A

/-- Wavelength of the 15-micron band, in meters. -/
def wavelength : ℝ := 15e-6

/-- Transition frequency (Hz), `c / wavelength`. -/
def frequency : ℝ := c / wavelength

/-- Energy of the transition photon (J), `h * frequency`. -/
def energy_transition : ℝ := h * frequency

/-- Einstein coefficient for spontaneous emission (1/s). -/
def A21 : ℝ := 1

/-- Collision cross-section (m²). -/
def sigma_collision : ℝ := 3e-19

/-- Absorption cross-section (m²), src/unnamed/part_001 cell 10. -/
def sigma_nu : ℝ := 1e-22

/-! ## Layer Builder (src/layers.js) -/

/-- Thickness of the next layer: `initialThickness * Math.exp(h2 / H)`
(src/layers.js, `calculateNextLayerThickness`). -/
def calculateNextLayerThickness (h2 initialThickness H : ℝ) : ℝ :=
  initialThickness * Real.exp (h2 / H)

/-- The mutable state of the src/layers.js script: the two result arrays and
the accumulated height. -/
structure LayerStack where
  layerStartPoints : List ℝ
  layerThicknesses : List ℝ
  accumulatedHeight : ℝ

/-- One iteration of the while-loop body of src/layers.js: read the last
start point and last thickness, compute the next thickness, clip it when it
would overshoot `maxAltitude`, and push. -/
def buildStep (t0 Hs maxAltitude : ℝ) (s : LayerStack) : LayerStack :=
  let h2 := s.layerStartPoints.getLastD 0 + s.layerThicknesses.getLastD 0
  let nextRaw := calculateNextLayerThickness h2 t0 Hs
  let next := if s.accumulatedHeight + nextRaw > maxAltitude
    then maxAltitude - s.accumulatedHeight else nextRaw
  ⟨s.layerStartPoints ++ [h2], s.layerThicknesses ++ [next],
    s.accumulatedHeight + next⟩

/-- The while-loop of src/layers.js (`while (accumulatedHeight < maxAltitude)`),
with explicit fuel; `none` means the fuel ran out before the guard turned
false. -/
def buildGo (t0 Hs maxAltitude : ℝ) : ℕ → LayerStack → Option LayerStack
  | 0, s =>
      if s.accumulatedHeight < maxAltitude then none else some s
  | fuel + 1, s =>
      if s.accumulatedHeight < maxAltitude then
        buildGo t0 Hs maxAltitude fuel (buildStep t0 Hs maxAltitude s)
      else some s

/-- The whole src/layers.js computation: arrays initialised to `[0]` and
`[initialThickness]`, accumulated height to `initialThickness`, then the
while-loop. -/
def buildLayers (t0 Hs maxAltitude : ℝ) (fuel : ℕ) : Option LayerStack :=
  buildGo t0 Hs maxAltitude fuel ⟨[0], [t0], t0⟩

end

/-! ## Layer Builder invariants -/

/-- Auxiliary list fact: the last element with default is the element at
index `length - 1` for a nonempty list. -/
lemma getLastD_eq_getD (l : List ℝ) (d : ℝ) (hl : l ≠ []) :
    l.getLastD d = l.getD (l.length - 1) d := by
  induction l generalizing d with
  | nil => exact absurd rfl hl
  | cons a l ih =>
    cases l with
    | nil => rfl
    | cons b m =>
      rw [List.getLastD_cons, ih a (by simp)]
      have h1 : (a :: b :: m).length - 1 = m.length + 1 := by simp
      have h2 : (b :: m).length - 1 = m.length := by simp
      rw [h1, h2, List.getD_cons_succ,
        List.getD_eq_getElem (b :: m) a (by simp),
        List.getD_eq_getElem (b :: m) d (by simp)]

/-- The structural invariants the src/layers.js loop maintains: the two
arrays have equal length, start points are contiguous
(`startAltitude[i+1] = startAltitude[i] + thickness[i]`), the last start
point plus the last thickness equals the accumulated height, and the
thicknesses sum to the accumulated height. -/
structure StackInv (s : LayerStack) : Prop where
  ne_nil : s.layerStartPoints ≠ []
  len_eq : s.layerStartPoints.length = s.layerThicknesses.length
  contig : ∀ i, i + 1 < s.layerStartPoints.length →
    s.layerStartPoints.getD (i + 1) 0 =
      s.layerStartPoints.getD i 0 + s.layerThicknesses.getD i 0
  last_eq : s.layerStartPoints.getLastD 0 + s.layerThicknesses.getLastD 0 =
    s.accumulatedHeight
  sum_eq : s.layerThicknesses.sum = s.accumulatedHeight

/-- The initial state `([0], [t0], t0)` of src/layers.js satisfies the
invariants. -/
lemma stackInv_init (t0 : ℝ) : StackInv ⟨[0], [t0], t0⟩ := by
  refine ⟨by simp, by simp, ?_, by simp, by simp⟩
  intro i hi
  simp at hi

/-- One loop iteration preserves the invariants. -/
lemma stackInv_buildStep (t0 Hs Htot : ℝ) (s : LayerStack) (hs : StackInv s) :
    StackInv (buildStep t0 Hs Htot s) := by
  obtain ⟨hne, hlen, hcontig, hlast, hsum⟩ := hs
  have hne' : s.layerThicknesses ≠ [] := by
    intro hc
    rw [← List.length_pos] at hne
    rw [hlen, hc] at hne
    simp at hne
  constructor
  · simp [buildStep]
  · simp [buildStep, hlen]
  · intro i hi
    simp only [buildStep, List.length_append, List.length_singleton] at hi ⊢
    rcases lt_or_eq_of_le (Nat.lt_succ_iff.mp hi) with hlt | heq
    · rw [List.getD_append _ _ _ _ hlt,
        List.getD_append _ _ _ _ (Nat.lt_of_succ_lt hlt),
        List.getD_append _ _ _ _ (by rw [← hlen]; exact Nat.lt_of_succ_lt hlt)]
      exact hcontig i hlt
    · have hi1 : s.layerStartPoints.length ≤ i + 1 := le_of_eq heq.symm
      rw [List.getD_append_right _ _ _ _ hi1, heq, Nat.sub_self]
      have hig : i = s.layerStartPoints.length - 1 := by omega
      have hit : i < s.layerStartPoints.length := by omega
      rw [List.getD_append _ _ _ _ hit,
        List.getD_append _ _ _ _ (by rw [← hlen]; exact hit)]
      have hig' : i = s.layerThicknesses.length - 1 := by omega
      have hr1 : s.layerStartPoints.getD i 0 = s.layerStartPoints.getLastD 0 := by
        rw [getLastD_eq_getD _ _ hne, hig]
      have hr2 : s.layerThicknesses.getD i 0 = s.layerThicknesses.getLastD 0 := by
        rw [getLastD_eq_getD _ _ hne', hig']
      rw [hr1, hr2]
      rfl
  · simp only [buildStep]
    rw [List.getLastD_concat, List.getLastD_concat]
    rw [← hlast]
  · simp only [buildStep]
    rw [List.sum_append, List.sum_singleton, hsum]

/-- The loop body never pushes the accumulated height above `maxAltitude`:
either the raw next thickness fits, or it is clipped to land exactly on
`maxAltitude`. -/
lemma buildStep_acc_le (t0 Hs Htot : ℝ) (s : LayerStack) :
    (buildStep t0 Hs Htot s).accumulatedHeight ≤ Htot ∨
      (buildStep t0 Hs Htot s).accumulatedHeight =
        s.accumulatedHeight +
          calculateNextLayerThickness
            (s.layerStartPoints.getLastD 0 + s.layerThicknesses.getLastD 0)
            t0 Hs := by
  simp only [buildStep]
  split
  · left; simp
  · right; rfl

/-- The accumulated height after one loop iteration, written out. -/
lemma buildStep_acc (t0 Hs Htot : ℝ) (s : LayerStack) :
    (buildStep t0 Hs Htot s).accumulatedHeight =
      s.accumulatedHeight +
        (if s.accumulatedHeight + calculateNextLayerThickness
            (s.layerStartPoints.getLastD 0 + s.layerThicknesses.getLastD 0)
            t0 Hs > Htot
          then Htot - s.accumulatedHeight
          else calculateNextLayerThickness
            (s.layerStartPoints.getLastD 0 + s.layerThicknesses.getLastD 0)
            t0 Hs) := rfl

/-- The thickness array grows by exactly one entry per loop iteration. -/
lemma buildStep_thick_len (t0 Hs Htot : ℝ) (s : LayerStack) :
    (buildStep t0 Hs Htot s).layerThicknesses.length =
      s.layerThicknesses.length + 1 := by
  simp [buildStep]

/-- When the loop returns (fuel did not run out), the invariants still hold
and, provided the accumulated height started at or below the target, it ends
exactly at the target. -/
lemma buildGo_some (t0 Hs Htot : ℝ) :
    ∀ (fuel : ℕ) (s out : LayerStack),
      buildGo t0 Hs Htot fuel s = some out →
      StackInv s → s.accumulatedHeight ≤ Htot →
      StackInv out ∧ out.accumulatedHeight = Htot := by
  intro fuel
  induction fuel with
  | zero =>
    intro s out hrun hinv hacc
    rw [buildGo] at hrun
    split at hrun
    · exact absurd hrun (by simp)
    · cases hrun
      exact ⟨hinv, le_antisymm hacc (not_lt.mp (by assumption))⟩
  | succ n ih =>
    intro s out hrun hinv hacc
    rw [buildGo] at hrun
    split at hrun
    · rename_i hguard
      refine ih (buildStep t0 Hs Htot s) out hrun
        (stackInv_buildStep t0 Hs Htot s hinv) ?_
      rcases buildStep_acc_le t0 Hs Htot s with hle | heq
      · exact hle
      · rw [heq]
        rw [buildStep_acc] at heq
        rcases lt_or_le Htot (s.accumulatedHeight +
          calculateNextLayerThickness
            (s.layerStartPoints.getLastD 0 + s.layerThicknesses.getLastD 0)
            t0 Hs) with hgt | hfit
        · rw [if_pos hgt] at heq
          linarith
        · exact hfit
    · cases hrun
      exact ⟨hinv, le_antisymm hacc (not_lt.mp (by assumption))⟩

/-- Claim C1 (amended: restricted to `t0 ≤ H_total`): whenever the Layer
Builder loop completes, the produced thicknesses sum to `H_total` exactly,
the two arrays have equal length, and
`startAltitude[i+1] = startAltitude[i] + thickness[i]` for every index i. -/
theorem layer_builder_sum_and_contiguity (t0 Hs Htot : ℝ) (fuel : ℕ)
    (out : LayerStack) (ht0 : 0 < t0) (hHs : 0 < Hs) (hHtot : 0 < Htot)
    (hle : t0 ≤ Htot) (hrun : buildLayers t0 Hs Htot fuel = some out) :
    out.layerThicknesses.sum = Htot ∧
    out.layerStartPoints.length = out.layerThicknesses.length ∧
    ∀ i, i + 1 < out.layerStartPoints.length →
      out.layerStartPoints.getD (i + 1) 0 =
        out.layerStartPoints.getD i 0 + out.layerThicknesses.getD i 0 := by
  obtain ⟨hinv, hacc⟩ :=
    buildGo_some t0 Hs Htot fuel ⟨[0], [t0], t0⟩ out hrun (stackInv_init t0) hle
  exact ⟨hinv.sum_eq.trans hacc, hinv.len_eq, hinv.contig⟩

/-- Witness for C1 at `t0 = 2, H_scale = 1, H_total = 2, fuel = 3`: the run
completes with the single layer `[2]`, whose sum is the total height 2. -/
theorem layer_builder_sum_and_contiguity_witness :
    buildLayers 2 1 2 3 = some ⟨[0], [2], 2⟩ ∧ ([2] : List ℝ).sum = 2 := by
  have hrun : buildLayers 2 1 2 3 = some ⟨[0], [2], 2⟩ := by
    rw [buildLayers, buildGo, if_neg (by norm_num)]
  exact ⟨hrun, (layer_builder_sum_and_contiguity 2 1 2 3 ⟨[0], [2], 2⟩
    (by norm_num) (by norm_num) (by norm_num) (by norm_num) hrun).1⟩

/-- Claim C1 counterexample: at the valid input `t0 = 2 > 0`,
`H_scale = 1 > 0`, `H_total = 1 > 0` the builder terminates with the single
thickness 2 (the first layer is pushed before the loop guard is consulted),
whose sum 2 overshoots and differs from `H_total = 1`. -/
theorem layer_builder_sum_counterexample :
    buildLayers 2 1 1 5 = some ⟨[0], [2], 2⟩ ∧ ([2] : List ℝ).sum ≠ 1 := by
  constructor
  · rw [buildLayers, buildGo, if_neg (by norm_num)]
  · norm_num

/-- Claim C2 (amended): if `t0 ≥ H_total`, exactly one layer is produced and
its thickness is `t0` (the unclipped initial thickness), which equals
`H_total` only when `t0 = H_total`. -/
theorem layer_builder_single_layer (t0 Hs Htot : ℝ) (fuel : ℕ)
    (hHtot : 0 < Htot) (hge : Htot ≤ t0) :
    buildLayers t0 Hs Htot fuel = some ⟨[0], [t0], t0⟩ ∧
      ([t0] : List ℝ).length = 1 := by
  refine ⟨?_, rfl⟩
  cases fuel with
  | zero => rw [buildLayers, buildGo, if_neg (not_lt.mpr hge)]
  | succ n => rw [buildLayers, buildGo, if_neg (not_lt.mpr hge)]

/-- Witness for C2 at `t0 = 3, H_scale = 1, H_total = 2, fuel = 7`. -/
theorem layer_builder_single_layer_witness :
    buildLayers 3 1 2 7 = some ⟨[0], [3], 3⟩ ∧ ([3] : List ℝ).length = 1 :=
  layer_builder_single_layer 3 1 2 7 (by norm_num) (by norm_num)

/-- Claim C2 counterexample: at `t0 = 2 ≥ H_total = 1` the single produced
layer has thickness 2 = t0, not `H_total = 1` as the claim states. -/
theorem layer_builder_single_layer_counterexample :
    buildLayers 2 1 1 5 = some ⟨[0], [2], 2⟩ ∧
      ([2] : List ℝ).getD 0 0 ≠ 1 := by
  constructor
  · rw [buildLayers, buildGo, if_neg (by norm_num)]
  · norm_num

/-! ## Layer Builder termination (Claim C9) -/

/-- With `⌈H_total / t0⌉` steps of fuel available from a state whose running
height is nonnegative, the loop reaches its exit condition: every unclipped
layer is at least `t0` thick, so the running height grows by at least `t0`
per iteration, and a clipped layer ends the loop at once. -/
lemma buildGo_isSome (t0 Hs Htot : ℝ) (ht0 : 0 < t0) (hHs : 0 < Hs) :
    ∀ (fuel : ℕ) (s : LayerStack), StackInv s → 0 ≤ s.accumulatedHeight →
      Htot ≤ s.accumulatedHeight + (fuel : ℝ) * t0 →
      ∃ out, buildGo t0 Hs Htot fuel s = some out ∧
        out.layerThicknesses.length ≤ s.layerThicknesses.length + fuel := by
  intro fuel
  induction fuel with
  | zero =>
    intro s hinv hacc hfuel
    refine ⟨s, ?_, by simp⟩
    rw [buildGo, if_neg (not_lt.mpr (by push_cast at hfuel; linarith))]
  | succ n ih =>
    intro s hinv hacc hfuel
    rw [buildGo]
    rcases lt_or_le s.accumulatedHeight Htot with hguard | hdone
    · rw [if_pos hguard]
      have hh2 : 0 ≤ s.layerStartPoints.getLastD 0 + s.layerThicknesses.getLastD 0 := by
        rw [hinv.last_eq]; exact hacc
      have hnextRaw : t0 ≤ calculateNextLayerThickness
          (s.layerStartPoints.getLastD 0 + s.layerThicknesses.getLastD 0) t0 Hs := by
        rw [calculateNextLayerThickness]
        nlinarith [Real.one_le_exp (div_nonneg hh2 hHs.le)]
      have hacc' : 0 ≤ (buildStep t0 Hs Htot s).accumulatedHeight := by
        rw [buildStep_acc]
        split
        · linarith
        · linarith
      have hfuel' : Htot ≤ (buildStep t0 Hs Htot s).accumulatedHeight + (n : ℝ) * t0 := by
        rw [buildStep_acc]
        split
        · nlinarith [Nat.cast_nonneg (α := ℝ) n]
        · push_cast at hfuel
          nlinarith
      obtain ⟨out, hout, hlen⟩ :=
        ih (buildStep t0 Hs Htot s) (stackInv_buildStep t0 Hs Htot s hinv) hacc' hfuel'
      refine ⟨out, hout, ?_⟩
      rw [buildStep_thick_len] at hlen
      omega
    · rw [if_neg (not_lt.mpr hdone)]
      exact ⟨s, rfl, by simp⟩

/-- Claim C9: for every positive `t0`, `H_scale`, `H_total` the generation
loop terminates: each unclipped layer thickness `t0 * exp(h / H_scale)` is at
least `t0` for nonnegative `h`, and the run with fuel `⌈H_total / t0⌉`
completes with at most `⌈H_total / t0⌉ + 1` layers. -/
theorem layer_builder_terminates (t0 Hs Htot : ℝ)
    (ht0 : 0 < t0) (hHs : 0 < Hs) (hHtot : 0 < Htot) :
    (∀ hh : ℝ, 0 ≤ hh → t0 ≤ calculateNextLayerThickness hh t0 Hs) ∧
    ∃ out, buildLayers t0 Hs Htot ⌈Htot / t0⌉₊ = some out ∧
      out.layerThicknesses.length ≤ ⌈Htot / t0⌉₊ + 1 := by
  constructor
  · intro hh hhh
    rw [calculateNextLayerThickness]
    nlinarith [Real.one_le_exp (div_nonneg hhh hHs.le)]
  · have hceil : Htot / t0 ≤ (⌈Htot / t0⌉₊ : ℝ) := Nat.le_ceil _
    have hbound : Htot ≤ t0 + (⌈Htot / t0⌉₊ : ℝ) * t0 := by
      have h1 : Htot / t0 * t0 ≤ (⌈Htot / t0⌉₊ : ℝ) * t0 :=
        mul_le_mul_of_nonneg_right hceil ht0.le
      rw [div_mul_cancel₀ _ (ne_of_gt ht0)] at h1
      linarith
    obtain ⟨out, hout, hlen⟩ := buildGo_isSome t0 Hs Htot ht0 hHs ⌈Htot / t0⌉₊
      ⟨[0], [t0], t0⟩ (stackInv_init t0) ht0.le hbound
    exact ⟨out, hout, by simp only [List.length_singleton] at hlen; omega⟩

/-- Witness for C9 at `t0 = 1, H_scale = 1, H_total = 2`: the loop
terminates with the given fuel. -/
theorem layer_builder_terminates_witness :
    (buildLayers 1 1 2 ⌈(2 : ℝ) / 1⌉₊).isSome = true := by
  obtain ⟨out, hout, -⟩ :=
    (layer_builder_terminates 1 1 2 (by norm_num) (by norm_num) (by norm_num)).2
  rw [hout]
  rfl

/-! ## Radiative Transfer Integrator (src/unnamed/part_001, cell 11) -/

noncomputable section

/-- One atmospheric layer as consumed by the transfer loop: the columns of
`layers_sorted` the loop reads (`Altitude`, `Temperature`, `Kappa`,
`P_radiative`). -/
structure AtmLayer where
  altitude : ℝ
  temperature : ℝ
  kappa : ℝ
  pRadiative : ℝ

/-- Default layer used by `List.getD`. -/
def layerD : AtmLayer := ⟨0, 0, 0, 0⟩

/-- Planck spectral radiance `B_nu` at the band frequency:
`(2 h ν³ / c²) / (exp(h ν / (k_B T)) - 1)`. -/
def planckRadiance (T : ℝ) : ℝ :=
  2 * h * frequency ^ 3 / c ^ 2 / (Real.exp (h * frequency / (k_B * T)) - 1)

/-- One record of the `layer_contributions` trace. -/
structure ContributionRow where
  deltaTau : ℝ
  tauNu : ℝ
  bNu : ℝ
  dINu : ℝ
  iNu : ℝ

/-- Default row used by `List.getD`. -/
def rowD : ContributionRow := ⟨0, 0, 0, 0, 0⟩

/-- The atmosphere is assumed to extend to 100 km (`100e3` in the source's
`delta_z` computation for the topmost layer). -/
def atmosphereTop : ℝ := 100e3

/-- One iteration of the transfer loop body: `delta_z` is the distance from
this layer's altitude up to the previously processed (higher) layer,
`ds = delta_z / cos 0`, `delta_tau = Kappa * ds`, the optical depth is
incremented first, then `dI_nu = B_nu (1 - exp(-delta_tau)) exp(-tau_nu)`,
scaled by `P_radiative`, is added to the radiance. -/
def stepRow (prevAlt tau_nu I_nu : ℝ) (layer : AtmLayer) : ContributionRow :=
  let delta_z := prevAlt - layer.altitude
  let ds := delta_z / Real.cos 0
  let delta_tau := layer.kappa * ds
  let tau_nu' := tau_nu + delta_tau
  let B_nu := planckRadiance layer.temperature
  let dI_nu := B_nu * (1 - Real.exp (-delta_tau)) * Real.exp (-tau_nu') *
    layer.pRadiative
  ⟨delta_tau, tau_nu', B_nu, dI_nu, I_nu + dI_nu⟩

/-- The transfer loop over the top-to-bottom sorted layers, accumulating the
trace; `prevAlt` is the altitude of the previously processed layer
(initially the 100 km top of the atmosphere). -/
def transferGo (prevAlt tau_nu I_nu : ℝ) : List AtmLayer → List ContributionRow
  | [] => []
  | layer :: rest =>
      let row := stepRow prevAlt tau_nu I_nu layer
      row :: transferGo layer.altitude row.tauNu row.iNu rest

/-- The whole integration: optical depth and radiance start at 0 at the top
of the atmosphere. -/
def solveTransfer (ls : List AtmLayer) : List ContributionRow :=
  transferGo atmosphereTop 0 0 ls

/-- The terminal upwelling radiance: `I_nu` after the last (bottom) layer,
0 for an empty stack. -/
def emergentRadiance (ls : List AtmLayer) : ℝ :=
  ((solveTransfer ls).getLastD rowD).iNu

/-- The altitude of the layer processed just before layer `i` (the 100 km
top of the atmosphere for the first layer). -/
def prevAltitude (p : ℝ) (ls : List AtmLayer) : ℕ → ℝ
  | 0 => p
  | i + 1 => (ls.getD i layerD).altitude

/-- Layer i's own slab thickness: the distance from its altitude up to the
layer above it (to the 100 km top of the atmosphere for the topmost layer);
this is the `delta_z` the source attributes to layer i. -/
def layerThicknessAt (ls : List AtmLayer) (i : ℕ) : ℝ :=
  prevAltitude atmosphereTop ls i - (ls.getD i layerD).altitude

/-! ### Elementary facts about the step and the trace -/

lemma stepRow_tauNu (p t I : ℝ) (l : AtmLayer) :
    (stepRow p t I l).tauNu = t + (stepRow p t I l).deltaTau := rfl

lemma stepRow_iNu (p t I : ℝ) (l : AtmLayer) :
    (stepRow p t I l).iNu = I + (stepRow p t I l).dINu := rfl

lemma stepRow_bNu (p t I : ℝ) (l : AtmLayer) :
    (stepRow p t I l).bNu = planckRadiance l.temperature := rfl

lemma stepRow_dINu (p t I : ℝ) (l : AtmLayer) :
    (stepRow p t I l).dINu =
      (stepRow p t I l).bNu *
        (1 - Real.exp (-(stepRow p t I l).deltaTau)) *
        Real.exp (-(stepRow p t I l).tauNu) * l.pRadiative := rfl

lemma stepRow_deltaTau (p t I : ℝ) (l : AtmLayer) :
    (stepRow p t I l).deltaTau =
      l.kappa * ((p - l.altitude) / Real.cos 0) := rfl

lemma transferGo_cons (p t I : ℝ) (l : AtmLayer) (rest : List AtmLayer) :
    transferGo p t I (l :: rest) =
      stepRow p t I l ::
        transferGo l.altitude (stepRow p t I l).tauNu (stepRow p t I l).iNu
          rest := rfl

lemma transferGo_length (ls : List AtmLayer) :
    ∀ p t I : ℝ, (transferGo p t I ls).length = ls.length := by
  induction ls with
  | nil => intro p t I; rfl
  | cons l rest ih =>
    intro p t I
    rw [transferGo_cons, List.length_cons, List.length_cons, ih]

lemma prevAltitude_cons (p : ℝ) (l : AtmLayer) (rest : List AtmLayer) (j : ℕ) :
    prevAltitude p (l :: rest) (j + 1) = prevAltitude l.altitude rest j := by
  cases j with
  | zero => rfl
  | succ k => rfl

/-- The recorded `Delta_Tau` of layer i is its kappa times the distance from
its altitude up to the layer processed before it, over `cos 0`. -/
lemma transferGo_deltaTau (ls : List AtmLayer) :
    ∀ (p t I : ℝ) (i : ℕ), i < ls.length →
      ((transferGo p t I ls).getD i rowD).deltaTau =
        (ls.getD i layerD).kappa *
          ((prevAltitude p ls i - (ls.getD i layerD).altitude) / Real.cos 0) := by
  induction ls with
  | nil => intro p t I i hi; simp at hi
  | cons l rest ih =>
    intro p t I i hi
    cases i with
    | zero => exact stepRow_deltaTau p t I l
    | succ j =>
      rw [transferGo_cons, List.getD_cons_succ, List.getD_cons_succ,
        prevAltitude_cons]
      exact ih l.altitude (stepRow p t I l).tauNu (stepRow p t I l).iNu j
        (by simpa using hi)

/-- Along the trace, each row's optical depth is the previous row's plus the
row's own `Delta_Tau`, and each row's radiance is the previous row's plus
the row's own contribution. -/
lemma transferGo_chain (ls : List AtmLayer) :
    ∀ (p t I : ℝ) (i : ℕ), i + 1 < ls.length →
      ((transferGo p t I ls).getD (i + 1) rowD).tauNu =
        ((transferGo p t I ls).getD i rowD).tauNu +
          ((transferGo p t I ls).getD (i + 1) rowD).deltaTau ∧
      ((transferGo p t I ls).getD (i + 1) rowD).iNu =
        ((transferGo p t I ls).getD i rowD).iNu +
          ((transferGo p t I ls).getD (i + 1) rowD).dINu := by
  induction ls with
  | nil => intro p t I i hi; simp at hi
  | cons l rest ih =>
    intro p t I i hi
    cases i with
    | zero =>
      cases rest with
      | nil => simp at hi
      | cons l2 rest2 =>
        rw [transferGo_cons, List.getD_cons_succ, List.getD_cons_zero,
          transferGo_cons, List.getD_cons_zero]
        exact ⟨stepRow_tauNu _ _ _ _, stepRow_iNu _ _ _ _⟩
    | succ j =>
      rw [transferGo_cons, List.getD_cons_succ, List.getD_cons_succ]
      exact ih l.altitude (stepRow p t I l).tauNu (stepRow p t I l).iNu j
        (by simpa using hi)

/-- Each trace row's contribution follows the discretized transfer-equation
formula, with the Planck radiance of that layer's temperature and that
layer's radiative probability. -/
lemma transferGo_row_formula (ls : List AtmLayer) :
    ∀ (p t I : ℝ) (i : ℕ), i < ls.length →
      ((transferGo p t I ls).getD i rowD).dINu =
        ((transferGo p t I ls).getD i rowD).bNu *
          (1 - Real.exp (-((transferGo p t I ls).getD i rowD).deltaTau)) *
          Real.exp (-((transferGo p t I ls).getD i rowD).tauNu) *
          (ls.getD i layerD).pRadiative ∧
      ((transferGo p t I ls).getD i rowD).bNu =
        planckRadiance (ls.getD i layerD).temperature := by
  induction ls with
  | nil => intro p t I i hi; simp at hi
  | cons l rest ih =>
    intro p t I i hi
    cases i with
    | zero =>
      rw [transferGo_cons, List.getD_cons_zero, List.getD_cons_zero]
      exact ⟨stepRow_dINu _ _ _ _, stepRow_bNu _ _ _ _⟩
    | succ j =>
      rw [transferGo_cons, List.getD_cons_succ, List.getD_cons_succ]
      exact ih l.altitude (stepRow p t I l).tauNu (stepRow p t I l).iNu j
        (by simpa using hi)

/-- Membership of an in-bounds `getD` access. -/
lemma getD_mem_layers (ls : List AtmLayer) (i : ℕ) (hi : i < ls.length) :
    ls.getD i layerD ∈ ls := by
  rw [List.getD_eq_getElem ls layerD hi]
  exact List.getElem_mem hi

/-- Claim C3: the integrator is the sequential fold of the discretized
transfer equation: the trace has one row per layer; the first row starts
from optical depth 0 and radiance 0; each row increments the optical depth
by its `deltaTau` first and then adds
`bNu * (1 - exp(-deltaTau)) * exp(-tauNu) * pRadiative` (with `tauNu`
already including `deltaTau`) to the running radiance; the terminal radiance
is the accumulated value after the last (bottom) layer. -/
theorem transfer_sequential_fold (ls : List AtmLayer) :
    (solveTransfer ls).length = ls.length ∧
    (ls ≠ [] →
      ((solveTransfer ls).getD 0 rowD).tauNu =
        0 + ((solveTransfer ls).getD 0 rowD).deltaTau ∧
      ((solveTransfer ls).getD 0 rowD).iNu =
        0 + ((solveTransfer ls).getD 0 rowD).dINu) ∧
    (∀ i, i + 1 < ls.length →
      ((solveTransfer ls).getD (i + 1) rowD).tauNu =
        ((solveTransfer ls).getD i rowD).tauNu +
          ((solveTransfer ls).getD (i + 1) rowD).deltaTau ∧
      ((solveTransfer ls).getD (i + 1) rowD).iNu =
        ((solveTransfer ls).getD i rowD).iNu +
          ((solveTransfer ls).getD (i + 1) rowD).dINu) ∧
    (∀ i, i < ls.length →
      ((solveTransfer ls).getD i rowD).dINu =
        ((solveTransfer ls).getD i rowD).bNu *
          (1 - Real.exp (-((solveTransfer ls).getD i rowD).deltaTau)) *
          Real.exp (-((solveTransfer ls).getD i rowD).tauNu) *
          (ls.getD i layerD).pRadiative ∧
      ((solveTransfer ls).getD i rowD).bNu =
        planckRadiance (ls.getD i layerD).temperature) ∧
    emergentRadiance ls = ((solveTransfer ls).getLastD rowD).iNu := by
  refine ⟨transferGo_length ls atmosphereTop 0 0, ?_, ?_, ?_, rfl⟩
  · intro hne
    cases ls with
    | nil => exact absurd rfl hne
    | cons l rest =>
      rw [solveTransfer, transferGo_cons, List.getD_cons_zero]
      exact ⟨stepRow_tauNu _ _ _ _, stepRow_iNu _ _ _ _⟩
  · intro i hi
    exact transferGo_chain ls atmosphereTop 0 0 i hi
  · intro i hi
    exact transferGo_row_formula ls atmosphereTop 0 0 i hi

/-- Witness for C3 on a concrete two-layer stack: the second row's optical
depth is the first row's plus the second row's own increment. -/
theorem transfer_sequential_fold_witness :
    ((solveTransfer [⟨20000, 288, 2, 1⟩, ⟨0, 250, 3, 1⟩]).getD 1 rowD).tauNu =
      ((solveTransfer [⟨20000, 288, 2, 1⟩, ⟨0, 250, 3, 1⟩]).getD 0 rowD).tauNu +
        ((solveTransfer [⟨20000, 288, 2, 1⟩, ⟨0, 250, 3, 1⟩]).getD 1 rowD).deltaTau :=
  ((transfer_sequential_fold [⟨20000, 288, 2, 1⟩, ⟨0, 250, 3, 1⟩]).2.2.1 0
    (by simp)).1

/-- Claim C4: the geometric path length used to form each layer's `deltaTau`
is that layer's own slab thickness divided by `cos` of the zenith angle
(zero for nadir viewing), and `deltaTau = kappa * geometricPathLength`; the
topmost layer's slab extends to the 100 km top of the atmosphere. -/
theorem deltaTau_eq_kappa_mul_path (ls : List AtmLayer) (i : ℕ)
    (hi : i < ls.length) :
    ((solveTransfer ls).getD i rowD).deltaTau =
      (ls.getD i layerD).kappa * (layerThicknessAt ls i / Real.cos 0) := by
  rw [solveTransfer, transferGo_deltaTau ls atmosphereTop 0 0 i hi,
    layerThicknessAt]

/-- Witness for C4 on a concrete two-layer stack, at the bottom layer. -/
theorem deltaTau_eq_kappa_mul_path_witness :
    ((solveTransfer [⟨20000, 288, 2, 1⟩, ⟨0, 250, 3, 1⟩]).getD 1 rowD).deltaTau =
      (([⟨20000, 288, 2, 1⟩, ⟨0, 250, 3, 1⟩] : List AtmLayer).getD 1 layerD).kappa *
        (layerThicknessAt [⟨20000, 288, 2, 1⟩, ⟨0, 250, 3, 1⟩] 1 / Real.cos 0) :=
  deltaTau_eq_kappa_mul_path [⟨20000, 288, 2, 1⟩, ⟨0, 250, 3, 1⟩] 1 (by simp)

/-! ### Invariants of the integration (Claims C5 and C10) -/

/-- In a well-ordered stack (each layer at or below the one processed before
it, the first at or below the 100 km top), nonnegative kappas give
nonnegative optical-depth increments. -/
lemma solveTransfer_deltaTau_nonneg (ls : List AtmLayer)
    (hdesc : ∀ i, i < ls.length →
      (ls.getD i layerD).altitude ≤ prevAltitude atmosphereTop ls i)
    (hkappa : ∀ l ∈ ls, 0 ≤ l.kappa) (i : ℕ) (hi : i < ls.length) :
    0 ≤ ((solveTransfer ls).getD i rowD).deltaTau := by
  rw [solveTransfer, transferGo_deltaTau ls atmosphereTop 0 0 i hi,
    Real.cos_zero, div_one]
  have hk : 0 ≤ (ls.getD i layerD).kappa := hkappa _ (getD_mem_layers ls i hi)
  have hz : 0 ≤ prevAltitude atmosphereTop ls i - (ls.getD i layerD).altitude :=
    sub_nonneg.mpr (hdesc i hi)
  exact mul_nonneg hk hz

/-- With kappa zero in every layer, every contribution and every running
radiance in the trace is zero, whatever the running optical depth is. -/
lemma transferGo_zero_kappa (ls : List AtmLayer) :
    ∀ p t : ℝ, (∀ l ∈ ls, l.kappa = 0) →
      ∀ r ∈ transferGo p t 0 ls, r.dINu = 0 ∧ r.iNu = 0 := by
  induction ls with
  | nil => intro p t hk r hr; simp [transferGo] at hr
  | cons l rest ih =>
    intro p t hk r hr
    have hl : l.kappa = 0 := hk l (by simp)
    have hdz : (stepRow p t 0 l).dINu = 0 := by
      simp [stepRow, hl]
    have hi0 : (stepRow p t 0 l).iNu = 0 := by
      rw [stepRow_iNu, hdz, add_zero]
    rw [transferGo_cons] at hr
    rcases List.mem_cons.mp hr with hr0 | hrtail
    · rw [hr0]
      exact ⟨hdz, hi0⟩
    · rw [hi0] at hrtail
      exact ih l.altitude (stepRow p t 0 l).tauNu
        (fun m hm => hk m (List.mem_cons_of_mem l hm)) r hrtail

/-- Claim C5: in a well-ordered stack, (a) with nonnegative kappa in every
layer the running optical depth is non-decreasing from each layer to the
next, and (b) with kappa zero in every layer the running radiance recorded
in the trace is zero at every step (hence also the terminal radiance). -/
theorem opticalDepth_monotone_and_zero_kappa_radiance (ls : List AtmLayer)
    (hdesc : ∀ i, i < ls.length →
      (ls.getD i layerD).altitude ≤ prevAltitude atmosphereTop ls i) :
    ((∀ l ∈ ls, 0 ≤ l.kappa) → ∀ i, i + 1 < ls.length →
      ((solveTransfer ls).getD i rowD).tauNu ≤
        ((solveTransfer ls).getD (i + 1) rowD).tauNu) ∧
    ((∀ l ∈ ls, l.kappa = 0) →
      (∀ r ∈ solveTransfer ls, r.iNu = 0) ∧ emergentRadiance ls = 0) := by
  constructor
  · intro hk i hi
    have hchain := (transferGo_chain ls atmosphereTop 0 0 i hi).1
    have hd := solveTransfer_deltaTau_nonneg ls hdesc hk (i + 1) hi
    rw [solveTransfer] at hd ⊢
    rw [hchain]
    linarith
  · intro hk
    have hall : ∀ r ∈ solveTransfer ls, r.iNu = 0 := fun r hr =>
      (transferGo_zero_kappa ls atmosphereTop 0 hk r hr).2
    refine ⟨hall, ?_⟩
    rw [emergentRadiance]
    cases hsl : solveTransfer ls with
    | nil => rfl
    | cons r rest =>
      have hmem : (r :: rest).getLastD rowD ∈ r :: rest := by
        rw [List.getLastD_eq_getLast?, List.getLast?_eq_getLast _ (by simp)]
        simp only [Option.getD_some]
        exact List.getLast_mem _
      rw [← hsl] at hmem
      have hval := hall _ hmem
      rw [hsl] at hval
      exact hval

/-- Witness for C5 on a concrete two-layer stack with kappa = 0: the
optical depth is monotone between the two rows and the radiance is zero. -/
theorem opticalDepth_monotone_witness :
    ((solveTransfer [⟨20000, 288, 0, 1⟩, ⟨0, 250, 0, 1⟩]).getD 0 rowD).tauNu ≤
      ((solveTransfer [⟨20000, 288, 0, 1⟩, ⟨0, 250, 0, 1⟩]).getD 1 rowD).tauNu ∧
    emergentRadiance [⟨20000, 288, 0, 1⟩, ⟨0, 250, 0, 1⟩] = 0 := by
  have hdesc : ∀ i, i < ([⟨20000, 288, 0, 1⟩, ⟨0, 250, 0, 1⟩] :
      List AtmLayer).length →
      (([⟨20000, 288, 0, 1⟩, ⟨0, 250, 0, 1⟩] : List AtmLayer).getD i
        layerD).altitude ≤
        prevAltitude atmosphereTop [⟨20000, 288, 0, 1⟩, ⟨0, 250, 0, 1⟩] i := by
    intro i hi
    simp only [List.length_cons, List.length_nil] at hi
    interval_cases i <;> norm_num [prevAltitude, atmosphereTop]
  have hth := opticalDepth_monotone_and_zero_kappa_radiance
    [⟨20000, 288, 0, 1⟩, ⟨0, 250, 0, 1⟩] hdesc
  refine ⟨hth.1 ?_ 0 (by simp), (hth.2 ?_).2⟩
  · intro l hl
    rcases List.mem_cons.mp hl with hl1 | hl2
    · rw [hl1]
    · rcases List.mem_cons.mp hl2 with hl3 | hl4
      · rw [hl3]
      · simp at hl4
  · intro l hl
    rcases List.mem_cons.mp hl with hl1 | hl2
    · rw [hl1]
    · rcases List.mem_cons.mp hl2 with hl3 | hl4
      · rw [hl3]
      · simp at hl4

/-- Positivity of the fixed band frequency. -/
lemma frequency_pos : 0 < frequency := by
  rw [frequency, c, wavelength]
  norm_num

/-- Positivity of the Planck radiance at positive temperature. -/
lemma planckRadiance_pos (T : ℝ) (hT : 0 < T) : 0 < planckRadiance T := by
  have hh : (0 : ℝ) < h := by rw [h]; norm_num
  have hkB : (0 : ℝ) < k_B := by rw [k_B]; norm_num
  have hc : (0 : ℝ) < c := by rw [c]; norm_num
  have hf := frequency_pos
  rw [planckRadiance]
  apply div_pos
  · positivity
  · have hx : 0 < h * frequency / (k_B * T) := by positivity
    have := Real.one_lt_exp_iff.mpr hx
    linarith

/-- Each contribution of a well-ordered stack with nonnegative kappa,
positive temperature and nonnegative radiative probability is
nonnegative. -/
lemma solveTransfer_dINu_nonneg (ls : List AtmLayer)
    (hdesc : ∀ i, i < ls.length →
      (ls.getD i layerD).altitude ≤ prevAltitude atmosphereTop ls i)
    (hlay : ∀ l ∈ ls, 0 ≤ l.kappa ∧ 0 < l.temperature ∧ 0 ≤ l.pRadiative)
    (i : ℕ) (hi : i < ls.length) :
    0 ≤ ((solveTransfer ls).getD i rowD).dINu := by
  obtain ⟨hdI, hB⟩ := transferGo_row_formula ls atmosphereTop 0 0 i hi
  rw [solveTransfer, hdI, hB]
  have hΔ := solveTransfer_deltaTau_nonneg ls hdesc
    (fun l hm => (hlay l hm).1) i hi
  rw [solveTransfer] at hΔ
  have hmem := getD_mem_layers ls i hi
  have hT : 0 < (ls.getD i layerD).temperature := (hlay _ hmem).2.1
  have hp : 0 ≤ (ls.getD i layerD).pRadiative := (hlay _ hmem).2.2
  have hBpos := planckRadiance_pos _ hT
  have hexp1 : Real.exp (-((transferGo atmosphereTop 0 0 ls).getD i
      rowD).deltaTau) ≤ 1 :=
    Real.exp_le_one_iff.mpr (by linarith)
  have hexp2 : (0 : ℝ) <
      Real.exp (-((transferGo atmosphereTop 0 0 ls).getD i rowD).tauNu) :=
    Real.exp_pos _
  exact mul_nonneg
    (mul_nonneg (mul_nonneg hBpos.le (by linarith)) hexp2.le) hp

/-- Claim C10: in a well-ordered stack in which every layer has kappa ≥ 0,
temperature > 0 and pRadiative ≥ 0, every per-layer contribution `dINu` is
nonnegative, and the running radiance recorded in the trace is
non-decreasing from the top layer to the bottom layer. -/
theorem radiance_contributions_nonneg_monotone (ls : List AtmLayer)
    (hdesc : ∀ i, i < ls.length →
      (ls.getD i layerD).altitude ≤ prevAltitude atmosphereTop ls i)
    (hlay : ∀ l ∈ ls, 0 ≤ l.kappa ∧ 0 < l.temperature ∧ 0 ≤ l.pRadiative) :
    (∀ i, i < ls.length → 0 ≤ ((solveTransfer ls).getD i rowD).dINu) ∧
    (∀ i, i + 1 < ls.length →
      ((solveTransfer ls).getD i rowD).iNu ≤
        ((solveTransfer ls).getD (i + 1) rowD).iNu) := by
  constructor
  · intro i hi
    exact solveTransfer_dINu_nonneg ls hdesc hlay i hi
  · intro i hi
    have hchain := (transferGo_chain ls atmosphereTop 0 0 i hi).2
    have hd := solveTransfer_dINu_nonneg ls hdesc hlay (i + 1) hi
    rw [solveTransfer] at hd ⊢
    rw [hchain]
    linarith

/-- Witness for C10 on a concrete two-layer stack with positive kappa. -/
theorem radiance_contributions_nonneg_monotone_witness :
    0 ≤ ((solveTransfer [⟨15000, 260, 1, 0.5⟩, ⟨0, 288, 2, 0.5⟩]).getD 0
      rowD).dINu ∧
    ((solveTransfer [⟨15000, 260, 1, 0.5⟩, ⟨0, 288, 2, 0.5⟩]).getD 0
        rowD).iNu ≤
      ((solveTransfer [⟨15000, 260, 1, 0.5⟩, ⟨0, 288, 2, 0.5⟩]).getD 1
        rowD).iNu := by
  have hdesc : ∀ i, i < ([⟨15000, 260, 1, 0.5⟩, ⟨0, 288, 2, 0.5⟩] :
      List AtmLayer).length →
      (([⟨15000, 260, 1, 0.5⟩, ⟨0, 288, 2, 0.5⟩] : List AtmLayer).getD i
        layerD).altitude ≤
        prevAltitude atmosphereTop [⟨15000, 260, 1, 0.5⟩, ⟨0, 288, 2, 0.5⟩] i := by
    intro i hi
    simp only [List.length_cons, List.length_nil] at hi
    interval_cases i <;> norm_num [prevAltitude, atmosphereTop]
  have hlay : ∀ l ∈ ([⟨15000, 260, 1, 0.5⟩, ⟨0, 288, 2, 0.5⟩] :
      List AtmLayer), 0 ≤ l.kappa ∧ 0 < l.temperature ∧ 0 ≤ l.pRadiative := by
    intro l hl
    rcases List.mem_cons.mp hl with hl1 | hl2
    · rw [hl1]; norm_num
    · rcases List.mem_cons.mp hl2 with hl3 | hl4
      · rw [hl3]; norm_num
      · simp at hl4
  have hth := radiance_contributions_nonneg_monotone
    [⟨15000, 260, 1, 0.5⟩, ⟨0, 288, 2, 0.5⟩] hdesc hlay
  exact ⟨hth.1 0 (by simp), hth.2 0 (by simp)⟩

end

/-! ## Layer Property Calculator (src/unnamed/part_001, cell 10) -/

noncomputable section

/-- The Boltzmann factor of a layer:
`np.exp(-E_upper / (k_B * Temperature))` with `E_upper = energy_transition`. -/
def Boltzmann_Factor (T : ℝ) : ℝ :=
  Real.exp (-energy_transition / (k_B * T))

/-- Maxwell-Boltzmann average molecular speed of a layer:
`sqrt(8 k_B T / (pi m_CO2))`. -/
def Average_Speed (T : ℝ) : ℝ :=
  Real.sqrt (8 * k_B * T / (Real.pi * m_CO2))

/-- Collisional de-excitation rate of a layer:
`Number_Density * sigma_collision * Average_Speed`. -/
def Collisional_Rate (numberDensity T : ℝ) : ℝ :=
  numberDensity * sigma_collision * Average_Speed T

/-- Total de-excitation rate: `Collisional_Rate + Radiative_Rate`. -/
def Total_Deexcitation_Rate (collisionalRate radiativeRate : ℝ) : ℝ :=
  collisionalRate + radiativeRate

/-- Radiative branching probability:
`Radiative_Rate / Total_Deexcitation_Rate`. -/
def P_radiative (collisionalRate radiativeRate : ℝ) : ℝ :=
  radiativeRate / Total_Deexcitation_Rate collisionalRate radiativeRate

/-- Collisional branching probability:
`Collisional_Rate / Total_Deexcitation_Rate`. -/
def P_collisional (collisionalRate radiativeRate : ℝ) : ℝ :=
  collisionalRate / Total_Deexcitation_Rate collisionalRate radiativeRate

/-- Positivity of the transition energy `h * frequency`. -/
lemma energy_transition_pos : 0 < energy_transition := by
  rw [energy_transition, frequency, h, c, wavelength]
  norm_num

/-- Positivity of the Boltzmann constant literal. -/
lemma k_B_pos : (0 : ℝ) < k_B := by
  rw [k_B]
  norm_num

/-- Claim C6: the Boltzmann factor lies strictly in (0,1) for every positive
temperature, and is strictly increasing in the temperature (colder layers
have a strictly smaller factor). -/
theorem boltzmann_factor_unit_interval_strictMono :
    (∀ T : ℝ, 0 < T → 0 < Boltzmann_Factor T ∧ Boltzmann_Factor T < 1) ∧
    (∀ T1 T2 : ℝ, 0 < T1 → 0 < T2 → T1 < T2 →
      Boltzmann_Factor T1 < Boltzmann_Factor T2) := by
  have hE := energy_transition_pos
  have hkB := k_B_pos
  constructor
  · intro T hT
    refine ⟨Real.exp_pos _, ?_⟩
    rw [Boltzmann_Factor]
    exact Real.exp_lt_one_iff.mpr
      (div_neg_of_neg_of_pos (neg_lt_zero.mpr hE) (mul_pos hkB hT))
  · intro T1 T2 hT1 hT2 h12
    rw [Boltzmann_Factor, Boltzmann_Factor, Real.exp_lt_exp, neg_div, neg_div,
      neg_lt_neg_iff]
    exact div_lt_div_of_pos_left hE (mul_pos hkB hT1)
      (by nlinarith)

/-- Witness for C6 at T = 200 and T1 = 200 < T2 = 300. -/
theorem boltzmann_factor_witness :
    (0 < Boltzmann_Factor 200 ∧ Boltzmann_Factor 200 < 1) ∧
      Boltzmann_Factor 200 < Boltzmann_Factor 300 :=
  ⟨boltzmann_factor_unit_interval_strictMono.1 200 (by norm_num),
    boltzmann_factor_unit_interval_strictMono.2 200 300 (by norm_num)
      (by norm_num) (by norm_num)⟩

/-- Claim C7: for positive collisional and radiative rates, the two
branching probabilities sum to exactly 1 and each lies in [0,1]. -/
theorem deexcitation_probabilities_sum_one (cRate rRate : ℝ)
    (hc : 0 < cRate) (hr : 0 < rRate) :
    P_radiative cRate rRate + P_collisional cRate rRate = 1 ∧
    0 ≤ P_radiative cRate rRate ∧ P_radiative cRate rRate ≤ 1 ∧
    0 ≤ P_collisional cRate rRate ∧ P_collisional cRate rRate ≤ 1 := by
  have htot : 0 < Total_Deexcitation_Rate cRate rRate := by
    rw [Total_Deexcitation_Rate]
    linarith
  refine ⟨?_, ?_, ?_, ?_, ?_⟩
  · rw [P_radiative, P_collisional, div_add_div_same,
      Total_Deexcitation_Rate, add_comm]
    exact div_self (by rw [← Total_Deexcitation_Rate]; exact ne_of_gt htot)
  · exact div_nonneg hr.le htot.le
  · rw [P_radiative]
    exact (div_le_one htot).mpr (by rw [Total_Deexcitation_Rate]; linarith)
  · exact div_nonneg hc.le htot.le
  · rw [P_collisional]
    exact (div_le_one htot).mpr (by rw [Total_Deexcitation_Rate]; linarith)

/-- Witness for C7 at collisional rate 2 and radiative rate 1. -/
theorem deexcitation_probabilities_sum_one_witness :
    P_radiative 2 1 + P_collisional 2 1 = 1 ∧ 0 ≤ P_radiative 2 1 :=
  ⟨(deexcitation_probabilities_sum_one 2 1 (by norm_num) (by norm_num)).1,
    (deexcitation_probabilities_sum_one 2 1 (by norm_num) (by norm_num)).2.1⟩

/-! ## Flux Converter (src/unnamed/part_001, cell 12) -/

/-- Photon flux density: `I_nu_up / (h * frequency)`, generic in the
frequency per the Flux Converter contract (the source instantiates the band
frequency). -/
def photon_flux_density (I_nu_up freq : ℝ) : ℝ :=
  I_nu_up / (h * freq)

/-- Total photon flux:
`photon_flux_density * delta_frequency * solid_angle` (the source
instantiates `delta_frequency = frequency * 0.01` and
`solid_angle = 2 * pi`). -/
def photon_flux (I_nu_up freq delta_frequency solid_angle : ℝ) : ℝ :=
  photon_flux_density I_nu_up freq * delta_frequency * solid_angle

/-- Claim C8: for positive frequency, bandwidth and solid angle, zero
emergent radiance converts to exactly zero photon flux, and the photon
energy divisor `h * freq` is nonzero, so no division error can arise. -/
theorem zero_radiance_zero_flux (freq dfreq sangle : ℝ)
    (hf : 0 < freq) (hd : 0 < dfreq) (hs : 0 < sangle) :
    photon_flux 0 freq dfreq sangle = 0 ∧ h * freq ≠ 0 := by
  have hh : (0 : ℝ) < h := by rw [h]; norm_num
  refine ⟨?_, ne_of_gt (mul_pos hh hf)⟩
  rw [photon_flux, photon_flux_density, zero_div, zero_mul, zero_mul]

/-- Witness for C8 at the source's own instantiation: the band frequency, a
1% bandwidth and the upward hemisphere. -/
theorem zero_radiance_zero_flux_witness :
    photon_flux 0 frequency (frequency * 0.01) (2 * Real.pi) = 0 :=
  (zero_radiance_zero_flux frequency (frequency * 0.01) (2 * Real.pi)
    frequency_pos (mul_pos frequency_pos (by norm_num)) (by positivity)).1

end

end CO2Escape
